import Mathlib

/-!
Verification development for the playwright-mcp caching and recording core.

The JavaScript modules `output-cache.js`, the snapshot cache, the
recording manager (`console-cache.js`, second document) and the recording
tools (`patch-response.js`, second document) are shallowly embedded below.
JavaScript `Map`s are modelled as association lists in insertion order
(`Map.set` updates in place or appends, `Map.delete` removes the first
matching key, `Map.keys().next().value` is the head key); JavaScript
strings are Lean `String`s; `split('\n')` / `join('\n')` are modelled by
character-level splitting and interleaving; truthiness of a string is
being nonempty.  Timer-based expiry (`setTimeout`) and wall-clock time are
represented by explicit `now` parameters; the MD5 digest used for change
detection is an arbitrary function parameter `hash : String → String`
(the design notes require behaviour to be digest-independent).
-/

namespace PwMcp

/-! ## JavaScript string and array primitives -/

/-- Model of `prefixOfB needle hay` is true when `needle` is a prefix of `hay`. -/
def prefixOfB : List Char → List Char → Bool
  | [], _ => true
  | _ :: _, [] => false
  | a :: as, b :: bs => a = b && prefixOfB as bs

/-- Model of `subOfB needle hay` is true when `needle` occurs contiguously in `hay`:
the model of JavaScript `String.prototype.includes`. -/
def subOfB (needle : List Char) : List Char → Bool
  | [] => prefixOfB needle []
  | c :: rest => prefixOfB needle (c :: rest) || subOfB needle rest

/-- JavaScript `hay.includes(needle)` on strings. -/
def strIncludes (hay needle : String) : Bool :=
  subOfB needle.data hay.data

/-- JavaScript `s.toLowerCase()` (character-wise lowering). -/
def lowerStr (s : String) : String :=
  String.mk (s.data.map Char.toLower)

/-- Whitespace stripped by JavaScript `s.trim()`. -/
def isJsSpace (c : Char) : Bool :=
  c.toNat = 32 || c.toNat = 9 || c.toNat = 10 || c.toNat = 13 ||
    c.toNat = 11 || c.toNat = 12

/-- JavaScript `s.trim()`. -/
def trimStr (s : String) : String :=
  String.mk (((s.data.dropWhile isJsSpace).reverse.dropWhile isJsSpace).reverse)

/-- Split a character list at every occurrence of `c`, keeping empty parts:
the model of JavaScript `text.split(c)` for a one-character separator. -/
def splitOnChar (c : Char) : List Char → List (List Char)
  | [] => [[]]
  | x :: xs =>
    if x = c then [] :: splitOnChar c xs
    else
      match splitOnChar c xs with
      | r :: rs => (x :: r) :: rs
      | [] => [[x]]

/-- Interleave `c` between the parts: the model of `parts.join(c)`. -/
def intercalateChar (c : Char) : List (List Char) → List Char
  | [] => []
  | [l] => l
  | l :: ls => l ++ c :: intercalateChar c ls

/-- JavaScript `text.split('\n')`. -/
def splitLines (s : String) : List String :=
  (splitOnChar (Char.ofNat 10) s.data).map (fun l => String.mk l)

/-- JavaScript `lines.join('\n')`. -/
def joinLines (ls : List String) : String :=
  String.mk (intercalateChar (Char.ofNat 10) (ls.map String.data))

/-- JavaScript `arr.slice(start, end)` with signed, relative indices. -/
def jsSlice (l : List String) (start stop : Int) : List String :=
  let len : Int := l.length
  let s : Int := if start < 0 then max (len + start) 0 else min start len
  let e : Int := if stop < 0 then max (len + stop) 0 else min stop len
  if s < e then (l.drop s.toNat).take (e.toNat - s.toNat) else []

/-- JavaScript `Map.prototype.get` over an insertion-ordered association list. -/
def jsMapGet {α : Type} (l : List (String × α)) (k : String) : Option α :=
  (l.find? (fun p => p.1 == k)).map Prod.snd

/-- JavaScript `Map.prototype.set`: update in place when the key is present,
append otherwise. -/
def jsMapSet {α : Type} (l : List (String × α)) (k : String) (v : α) :
    List (String × α) :=
  if l.any (fun p => p.1 == k) then
    l.map (fun p => if p.1 == k then (k, v) else p)
  else l ++ [(k, v)]

/-- JavaScript `Map.prototype.delete`: remove the entry with the given key. -/
def jsMapDelete {α : Type} (l : List (String × α)) (k : String) :
    List (String × α) :=
  l.eraseP (fun p => p.1 == k)

/-- Model of `Map.keys().next().value; Map.delete(oldestId)`: evict the
first-inserted entry (no-op on an empty map). -/
def evictOldest {α : Type} (l : List (String × α)) : List (String × α) :=
  match l.head? with
  | some (k, _) => jsMapDelete l k
  | none => l

/-! ## output-cache.js -/

/-- One entry of the universal output cache
(`content, lines, totalLines, createdAt, toolName`). -/
structure OutputEntry where
  content : String
  lines : List String
  totalLines : Nat
  createdAt : Nat
  toolName : String
  deriving DecidableEq

/-- The module-level `cache` map of output-cache.js. -/
structure OCState where
  entries : List (String × OutputEntry)
  deriving DecidableEq

/-- Model of `needsCaching(text)`: falsy text never needs caching; otherwise the
line count must exceed `CONFIG.maxLines = 100`. -/
def needsCaching (text : String) : Bool :=
  if text = "" then false
  else 100 < (splitLines text).length

/-- Result record of `cacheOutput`. -/
structure CacheOutResult where
  cacheId : String
  totalLines : Nat
  preview : String
  deriving DecidableEq

/-- Model of `cacheOutput(content, toolName)`: evict the oldest entry when at
capacity (`CONFIG.maxCacheSize = 30`), then store the split lines under a
fresh id.  The random id and the current time are explicit parameters. -/
def cacheOutput (st : OCState) (content toolName : String)
    (cacheId : String) (now : Nat) : OCState × CacheOutResult :=
  let entries1 :=
    if 30 ≤ st.entries.length then evictOldest st.entries else st.entries
  let lines := splitLines content
  let totalLines := lines.length
  let preview := joinLines (lines.take 20)
  let entry : OutputEntry :=
    ⟨content, lines, totalLines, now, toolName⟩
  (⟨jsMapSet entries1 cacheId entry⟩, ⟨cacheId, totalLines, preview⟩)

/-- Successful result record of `getPaginatedContent`. -/
structure PageResult where
  content : String
  startLine : Int
  endLine : Int
  totalLines : Nat
  hasMore : Bool
  toolName : String
  deriving DecidableEq

/-- Result of a fallible cache read. -/
inductive CacheRead (α : Type) where
  | error (msg : String)
  | ok (r : α)
  deriving DecidableEq

/-- Model of `getPaginatedContent(cacheId, startLine = 1, endLine = null)`:
1-indexed inclusive range; `endLine` falsy (null or 0) selects the default
page of `CONFIG.defaultPageSize = 50` lines. -/
def getPaginatedContent (st : OCState) (cacheId : String)
    (startLine : Int := 1) (endLine : Option Int := none) :
    CacheRead PageResult :=
  match jsMapGet st.entries cacheId with
  | none => .error ("Cache ID " ++ cacheId ++ " not found or expired")
  | some cached =>
    let start : Int := max 1 startLine - 1
    let stop : Int :=
      match endLine with
      | some e =>
        if e ≠ 0 then min e (cached.totalLines : Int)
        else min (start + 50) (cached.totalLines : Int)
      | none => min (start + 50) (cached.totalLines : Int)
    .ok ⟨joinLines (jsSlice cached.lines start stop),
         start + 1, stop, cached.totalLines,
         decide (stop < (cached.totalLines : Int)), cached.toolName⟩

/-- One match of `searchInCache`. -/
structure SearchMatch where
  line : Nat
  content : String
  deriving DecidableEq

/-- Successful result record of `searchInCache`. -/
structure SearchResult where
  query : String
  totalMatches : Nat
  results : List SearchMatch
  deriving DecidableEq

/-- Model of `line.substring(0, n) + (line.length > n ? '...' : '')`. -/
def cutWithEllipsis (line : String) (n : Nat) : String :=
  String.mk (line.data.take n) ++ (if n < line.length then "..." else "")

/-- The collecting loop of `searchInCache`: scan lines in order, stop once
`maxResults` matches are found (`budget` is the remaining allowance). -/
def searchScan (queryLower : String) (truncAt : Nat) :
    Nat → Nat → List String → List SearchMatch
  | _, _, [] => []
  | budget, i, line :: rest =>
    if budget = 0 then []
    else if strIncludes (lowerStr line) queryLower then
      ⟨i + 1, cutWithEllipsis line truncAt⟩ ::
        searchScan queryLower truncAt (budget - 1) (i + 1) rest
    else searchScan queryLower truncAt budget (i + 1) rest

/-- Model of `searchInCache(cacheId, query, maxResults = 20)`: case-insensitive
substring search over the stored lines, truncating matches at 150. -/
def searchInCache (st : OCState) (cacheId query : String)
    (maxResults : Nat := 20) : CacheRead SearchResult :=
  match jsMapGet st.entries cacheId with
  | none => .error ("Cache ID " ++ cacheId ++ " not found or expired")
  | some cached =>
    let results := searchScan (lowerStr query) 150 maxResults 0 cached.lines
    .ok ⟨query, results.length, results⟩

/-- Read-only operations of the output cache; used to state that reads
never mutate the store (no promotion on read). -/
inductive OCReadOp where
  | paginate (key : String) (startLine : Int) (endLine : Option Int)
  | search (key query : String) (maxResults : Nat)
  deriving DecidableEq

/-- A read returns its result and leaves the map exactly as found — the
translation of `getPaginatedContent`/`searchInCache`, which only call
`cache.get`. -/
def runOCRead (st : OCState) : OCReadOp → OCState
  | .paginate _ _ _ => st
  | .search _ _ _ => st

/-- Apply a sequence of read-only cache operations. -/
def runOCReads (st : OCState) (ops : List OCReadOp) : OCState :=
  ops.foldl runOCRead st

/-! ## Basic lemmas about the primitives -/

theorem splitOnChar_ne_nil (c : Char) (l : List Char) :
    splitOnChar c l ≠ [] := by
  induction l with
  | nil => simp [splitOnChar]
  | cons x xs ih =>
    simp only [splitOnChar]
    split
    · simp
    · cases h : splitOnChar c xs with
      | nil => exact absurd h ih
      | cons r rs => simp

theorem intercalateChar_splitOnChar (c : Char) (l : List Char) :
    intercalateChar c (splitOnChar c l) = l := by
  induction l with
  | nil => rfl
  | cons x xs ih =>
    simp only [splitOnChar]
    by_cases hx : x = c
    · subst hx
      simp only [if_pos rfl]
      cases h : splitOnChar x xs with
      | nil => exact absurd h (splitOnChar_ne_nil x xs)
      | cons r rs =>
        rw [h] at ih
        simp [intercalateChar, ih]
    · simp only [if_neg hx]
      cases h : splitOnChar c xs with
      | nil => exact absurd h (splitOnChar_ne_nil c xs)
      | cons r rs =>
        rw [h] at ih
        cases rs with
        | nil => simpa [intercalateChar] using ih
        | cons r2 rs2 => simpa [intercalateChar] using ih

theorem joinLines_splitLines (s : String) : joinLines (splitLines s) = s := by
  cases s with
  | mk data =>
    simp only [joinLines, splitLines, List.map_map]
    have h : (String.data ∘ fun l : List Char => String.mk l) = id := rfl
    rw [h, List.map_id, intercalateChar_splitOnChar]

theorem splitLines_ne_nil (s : String) : splitLines s ≠ [] := by
  simp only [splitLines]
  intro h
  exact splitOnChar_ne_nil _ _ (List.map_eq_nil_iff.mp h)

theorem jsSlice_full (l : List String) :
    jsSlice l 0 (l.length : Int) = l := by
  simp only [jsSlice]
  split
  · omega
  · split
    · omega
    · simp only [min_self]
      split
      · simp [Int.toNat_ofNat]
      · have : (l.length : Int) ≤ 0 := by omega
        have hlen : l.length = 0 := by omega
        simp [List.length_eq_zero.mp hlen]

theorem jsMapGet_set_self {α : Type} (l : List (String × α)) (k : String)
    (v : α) : jsMapGet (jsMapSet l k v) k = some v := by
  simp only [jsMapSet]
  split
  · rename_i hany
    induction l with
    | nil => simp at hany
    | cons p rest ih =>
      by_cases hp : p.1 == k
      · simp [jsMapGet, List.find?, hp]
      · simp only [List.any_cons, hp, Bool.false_or] at hany
        simp only [List.map_cons, if_neg (by simpa using hp)]
        simpa [jsMapGet, List.find?, hp] using ih hany
  · induction l with
    | nil => simp [jsMapGet, List.find?]
    | cons p rest ih =>
      rename_i hany
      simp only [List.any_cons, Bool.or_eq_true, not_or] at hany
      simp only [List.cons_append]
      simpa [jsMapGet, List.find?, hany.1] using
        ih (by simpa using hany.2)

theorem jsMapSet_fresh {α : Type} (l : List (String × α)) (k : String) (v : α)
    (h : ∀ p ∈ l, p.1 ≠ k) : jsMapSet l k v = l ++ [(k, v)] := by
  simp only [jsMapSet]
  rw [if_neg]
  intro hany
  simp only [List.any_eq_true] at hany
  obtain ⟨p, hp, hbeq⟩ := hany
  exact h p hp (by simpa using hbeq)

theorem jsMapGet_eq_none {α : Type} (l : List (String × α)) (k : String)
    (h : ∀ p ∈ l, p.1 ≠ k) : jsMapGet l k = none := by
  simp only [jsMapGet]
  rw [List.find?_eq_none.mpr]
  · rfl
  · intro p hp
    simpa using h p hp

theorem jsMapGet_of_mem_nodup {α : Type} {l : List (String × α)} {k : String}
    {v : α} (hnd : (l.map Prod.fst).Nodup) (hmem : (k, v) ∈ l) :
    jsMapGet l k = some v := by
  induction l with
  | nil => simp at hmem
  | cons p rest ih =>
    simp only [List.map_cons, List.nodup_cons] at hnd
    rcases List.mem_cons.mp hmem with h1 | h2
    · cases h1
      simp [jsMapGet, List.find?]
    · have hp : p.1 ≠ k := by
        intro he
        exact hnd.1 (he ▸ List.mem_map.mpr ⟨(k, v), h2, rfl⟩)
      have hb : (p.1 == k) = false := beq_eq_false_iff_ne.mpr hp
      simp only [jsMapGet, List.find?, hb]
      exact ih hnd.2 h2

theorem evictOldest_cons {α : Type} (k : String) (v : α)
    (rest : List (String × α)) : evictOldest ((k, v) :: rest) = rest := by
  simp only [evictOldest, List.head?, jsMapDelete]
  rw [List.eraseP_cons_of_pos]
  simp

theorem runOCReads_id (st : OCState) (ops : List OCReadOp) :
    runOCReads st ops = st := by
  induction ops generalizing st with
  | nil => rfl
  | cons op rest ih =>
    cases op <;> exact ih st

/-! ## The snapshot cache (part_000) -/

/-- Character class of the ref capture group: `[a-z0-9]`, widened to
`[a-zA-Z0-9]` under the `i` flag. -/
def isRefChar (ci : Bool) (c : Char) : Bool :=
  if ci then c.isAlpha || c.isDigit
  else c.isLower || c.isDigit

/-- Case-insensitive (under `ci`) comparison against a lowercase letter. -/
def charMatches (ci : Bool) (c target : Char) : Bool :=
  if ci then c.toLower = target else c = target

/-- Try to match the regex `\[ref=([a-z0-9]+)\]` (with optional `i` flag)
at the head of the character list, returning the captured group. -/
def refTryAt (ci : Bool) : List Char → Option String
  | c1 :: c2 :: c3 :: c4 :: c5 :: rest =>
    if c1 = '[' && charMatches ci c2 'r' && charMatches ci c3 'e' &&
        charMatches ci c4 'f' && c5 = '=' then
      let refChars := rest.takeWhile (isRefChar ci)
      if refChars.isEmpty then none
      else
        match rest.drop refChars.length with
        | ']' :: _ => some (String.mk refChars)
        | _ => none
    else none
  | _ => none

/-- First match of `\[ref=([a-z0-9]+)\]` in the list: the model of
`line.match(...)` returning the capture `match[1]`. -/
def refFind (ci : Bool) : List Char → Option String
  | [] => none
  | c :: rest =>
    match refTryAt ci (c :: rest) with
    | some r => some r
    | none => refFind ci rest

/-- One structure hint of the snapshot cache. -/
structure StructureHint where
  line : Nat
  ref : Option String
  element : String
  deriving DecidableEq

/-- The regex `/^- (main|nav|header|footer|aside|article|section|iframe|dialog|form)/i`. -/
def structuralStart (line : String) : Bool :=
  ["- main", "- nav", "- header", "- footer", "- aside", "- article",
   "- section", "- iframe", "- dialog", "- form"].any
    (fun p => prefixOfB p.data (lowerStr line).data)

/-- The regex `/(button|link|textbox|checkbox|combobox|table|grid)/i`. -/
def interestingElement (line : String) : Bool :=
  ["button", "link", "textbox", "checkbox", "combobox", "table", "grid"].any
    (fun p => subOfB p.data (lowerStr line).data)

/-- Model of `line.trim().substring(2, 50) + (line.length > 52 ? '...' : '')`. -/
def hintElement1 (line : String) : String :=
  String.mk (((trimStr line).data.drop 2).take 48) ++
    (if 52 < line.length then "..." else "")

/-- Model of `line.trim().substring(0, 60) + (line.length > 60 ? '...' : '')`. -/
def hintElement2 (line : String) : String :=
  String.mk ((trimStr line).data.take 60) ++
    (if 60 < line.length then "..." else "")

/-- The scanning loop of `extractStructureHints`: structural elements are
always pushed; ref-carrying interesting elements only while fewer than 20
hints are collected. -/
def hintScan : Nat → List String → List StructureHint → List StructureHint
  | _, [], acc => acc
  | i, line :: rest, acc =>
    let acc1 :=
      if structuralStart line then acc ++ [⟨i + 1, none, hintElement1 line⟩]
      else acc
    let acc2 :=
      match refFind false line.data with
      | some r =>
        if acc1.length < 20 && interestingElement line then
          acc1 ++ [⟨i + 1, some r, hintElement2 line⟩]
        else acc1
      | none => acc1
    hintScan (i + 1) rest acc2

/-- Model of `extractStructureHints(lines)`: scan all lines, keep at most 15 hints. -/
def extractStructureHints (lines : List String) : List StructureHint :=
  (hintScan 0 lines []).take 15

/-- One entry of the snapshot cache. -/
structure SnapEntry where
  content : String
  lines : List String
  url : String
  title : String
  totalLines : Nat
  createdAt : Nat
  structureHints : List StructureHint
  deriving DecidableEq

/-- The module-level `snapshotCache` map. -/
structure SnapCacheState where
  entries : List (String × SnapEntry)
  deriving DecidableEq

/-- Model of `countLines(text)`. -/
def countLines (text : String) : Nat := (splitLines text).length

/-- Model of `needsPagination(snapshotText)`: line count above `CONFIG.maxLines = 300`. -/
def needsPagination (snapshotText : String) : Bool :=
  300 < countLines snapshotText

/-- Result record of `cacheSnapshot`. -/
structure CacheSnapResult where
  cacheId : String
  totalLines : Nat
  structureHints : List StructureHint
  deriving DecidableEq

/-- Model of `cacheSnapshot(snapshotText, url, title)`: evict the oldest entry when
at capacity (`CONFIG.maxCacheSize = 50`), then store under a fresh id. -/
def cacheSnapshot (st : SnapCacheState) (snapshotText url title : String)
    (cacheId : String) (now : Nat) : SnapCacheState × CacheSnapResult :=
  let entries1 :=
    if 50 ≤ st.entries.length then evictOldest st.entries else st.entries
  let lines := splitLines snapshotText
  let totalLines := lines.length
  let structureHints := extractStructureHints lines
  (⟨jsMapSet entries1 cacheId
      ⟨snapshotText, lines, url, title, totalLines, now, structureHints⟩⟩,
   ⟨cacheId, totalLines, structureHints⟩)

/-- Successful result record of the snapshot cache `getPaginatedContent`. -/
structure SnapPageResult where
  content : String
  startLine : Int
  endLine : Int
  totalLines : Nat
  hasMore : Bool
  deriving DecidableEq

/-- The snapshot cache `getPaginatedContent(cacheId, startLine = 1,
endLine = null)` with `CONFIG.defaultPageSize = 100`. -/
def snapGetPaginatedContent (st : SnapCacheState) (cacheId : String)
    (startLine : Int := 1) (endLine : Option Int := none) :
    CacheRead SnapPageResult :=
  match jsMapGet st.entries cacheId with
  | none => .error ("Cache ID " ++ cacheId ++ " not found or expired")
  | some cached =>
    let start : Int := max 1 startLine - 1
    let stop : Int :=
      match endLine with
      | some e =>
        if e ≠ 0 then min e (cached.totalLines : Int)
        else min (start + 100) (cached.totalLines : Int)
      | none => min (start + 100) (cached.totalLines : Int)
    .ok ⟨joinLines (jsSlice cached.lines start stop),
         start + 1, stop, cached.totalLines,
         decide (stop < (cached.totalLines : Int))⟩

/-- The snapshot cache `searchInCache(cacheId, query, maxResults = 10)`,
truncating matched lines at 100 characters. -/
def snapSearchInCache (st : SnapCacheState) (cacheId query : String)
    (maxResults : Nat := 10) : CacheRead SearchResult :=
  match jsMapGet st.entries cacheId with
  | none => .error ("Cache ID " ++ cacheId ++ " not found or expired")
  | some cached =>
    let results := searchScan (lowerStr query) 100 maxResults 0 cached.lines
    .ok ⟨query, results.length, results⟩

/-- Read-only operations of the snapshot cache. -/
inductive SnapReadOp where
  | paginate (key : String) (startLine : Int) (endLine : Option Int)
  | search (key query : String) (maxResults : Nat)
  deriving DecidableEq

/-- Snapshot cache reads only call `snapshotCache.get` and leave the map
as found. -/
def runSnapRead (st : SnapCacheState) : SnapReadOp → SnapCacheState
  | .paginate _ _ _ => st
  | .search _ _ _ => st

/-- Apply a sequence of read-only snapshot cache operations. -/
def runSnapReads (st : SnapCacheState) (ops : List SnapReadOp) : SnapCacheState :=
  ops.foldl runSnapRead st

theorem runSnapReads_id (st : SnapCacheState) (ops : List SnapReadOp) :
    runSnapReads st ops = st := by
  induction ops generalizing st with
  | nil => rfl
  | cons op rest ih =>
    cases op <;> exact ih st

theorem splitLines_length_pos (s : String) : 0 < (splitLines s).length := by
  cases hsp : splitLines s with
  | nil => exact absurd hsp (splitLines_ne_nil s)
  | cons a l => simp

/-- C1: for every text whose line count exceeds the caching threshold,
caching it with `cacheOutput` and then paginating the returned key from
line 1 to its total line count via `getPaginatedContent` returns content
equal to the original text exactly. -/
theorem c1_cache_paginate_roundtrip
    (st : OCState) (content toolName cacheId : String) (now : Nat)
    (h : needsCaching content = true) :
    ∃ r, getPaginatedContent (cacheOutput st content toolName cacheId now).1
          (cacheOutput st content toolName cacheId now).2.cacheId 1
          (some ((cacheOutput st content toolName cacheId now).2.totalLines : Int))
        = .ok r ∧ r.content = content := by
  have hget : jsMapGet (cacheOutput st content toolName cacheId now).1.entries
      cacheId
      = some ⟨content, splitLines content, (splitLines content).length, now,
              toolName⟩ := by
    simp only [cacheOutput]
    exact jsMapGet_set_self _ _ _
  have hcid : (cacheOutput st content toolName cacheId now).2.cacheId = cacheId :=
    rfl
  have htl : (cacheOutput st content toolName cacheId now).2.totalLines
      = (splitLines content).length := rfl
  rw [hcid, htl]
  have hne : ((splitLines content).length : Int) ≠ 0 := by
    exact_mod_cast (splitLines_length_pos content).ne'
  simp only [getPaginatedContent, hget, if_pos hne, min_self]
  refine ⟨_, rfl, ?_⟩
  have hm : (max 1 1 - 1 : Int) = 0 := by norm_num
  show joinLines (jsSlice (splitLines content) (max 1 1 - 1)
        ((splitLines content).length : Int)) = content
  rw [hm, jsSlice_full, joinLines_splitLines]

theorem c1_witness :
    needsCaching (joinLines (List.replicate 101 "a")) = true ∧
    ∃ r, getPaginatedContent
          (cacheOutput ⟨[]⟩ (joinLines (List.replicate 101 "a")) "t" "out_1" 0).1
          (cacheOutput ⟨[]⟩ (joinLines (List.replicate 101 "a")) "t" "out_1" 0).2.cacheId
          1
          (some ((cacheOutput ⟨[]⟩ (joinLines (List.replicate 101 "a")) "t" "out_1" 0).2.totalLines : Int))
        = .ok r ∧ r.content = joinLines (List.replicate 101 "a") :=
  ⟨by decide,
   c1_cache_paginate_roundtrip ⟨[]⟩ (joinLines (List.replicate 101 "a"))
     "t" "out_1" 0 (by decide)⟩

/-- C9: for a key present in the output cache (respectively the snapshot
cache) and arbitrary integer `startLine`/`endLine`, `getPaginatedContent`
(respectively the snapshot cache variant) returns a result and never an
error: a `startLine` below 1 is treated as 1, an `endLine` above the total
line count is clamped to the total, and `hasMore` holds exactly when the
returned `endLine` is strictly below the total. -/
theorem c9_paginate_total_clamped
    (st : OCState) (key : String) (e : OutputEntry)
    (hget : jsMapGet st.entries key = some e) (s t : Int)
    (st2 : SnapCacheState) (key2 : String) (e2 : SnapEntry)
    (hget2 : jsMapGet st2.entries key2 = some e2) (s2 t2 : Int) :
    (∃ r, getPaginatedContent st key s (some t) = .ok r
      ∧ (s < 1 → r.startLine = 1)
      ∧ ((e.totalLines : Int) < t → r.endLine = (e.totalLines : Int))
      ∧ (r.hasMore = true ↔ r.endLine < (r.totalLines : Int)))
    ∧ (∃ r, snapGetPaginatedContent st2 key2 s2 (some t2) = .ok r
      ∧ (s2 < 1 → r.startLine = 1)
      ∧ ((e2.totalLines : Int) < t2 → r.endLine = (e2.totalLines : Int))
      ∧ (r.hasMore = true ↔ r.endLine < (r.totalLines : Int))) := by
  constructor
  · simp only [getPaginatedContent, hget]
    refine ⟨_, rfl, ?_, ?_, ?_⟩
    · intro hs
      have : max 1 s = 1 := max_eq_left (le_of_lt hs)
      simp [this]
    · intro ht
      have hne : t ≠ 0 := by
        have : (0 : Int) ≤ (e.totalLines : Int) := Int.natCast_nonneg _
        omega
      simp only [if_pos hne]
      exact min_eq_right (le_of_lt ht)
    · simp
  · simp only [snapGetPaginatedContent, hget2]
    refine ⟨_, rfl, ?_, ?_, ?_⟩
    · intro hs
      have : max 1 s2 = 1 := max_eq_left (le_of_lt hs)
      simp [this]
    · intro ht
      have hne : t2 ≠ 0 := by
        have : (0 : Int) ≤ (e2.totalLines : Int) := Int.natCast_nonneg _
        omega
      simp only [if_pos hne]
      exact min_eq_right (le_of_lt ht)
    · simp

theorem c9_witness :
    jsMapGet (⟨[("k", ⟨"a", ["a"], 1, 0, "t"⟩)]⟩ : OCState).entries "k"
        = some ⟨"a", ["a"], 1, 0, "t"⟩ ∧
    jsMapGet (⟨[("q", ⟨"b", ["b"], "u", "ti", 1, 0, []⟩)]⟩ : SnapCacheState).entries "q"
        = some ⟨"b", ["b"], "u", "ti", 1, 0, []⟩ ∧
    ((∃ r, getPaginatedContent ⟨[("k", ⟨"a", ["a"], 1, 0, "t"⟩)]⟩ "k" (-5) (some 1000) = .ok r
      ∧ ((-5 : Int) < 1 → r.startLine = 1)
      ∧ (((⟨"a", ["a"], 1, 0, "t"⟩ : OutputEntry).totalLines : Int) < 1000 →
          r.endLine = ((⟨"a", ["a"], 1, 0, "t"⟩ : OutputEntry).totalLines : Int))
      ∧ (r.hasMore = true ↔ r.endLine < (r.totalLines : Int)))
    ∧ (∃ r, snapGetPaginatedContent ⟨[("q", ⟨"b", ["b"], "u", "ti", 1, 0, []⟩)]⟩ "q" (-5) (some 1000) = .ok r
      ∧ ((-5 : Int) < 1 → r.startLine = 1)
      ∧ (((⟨"b", ["b"], "u", "ti", 1, 0, []⟩ : SnapEntry).totalLines : Int) < 1000 →
          r.endLine = ((⟨"b", ["b"], "u", "ti", 1, 0, []⟩ : SnapEntry).totalLines : Int))
      ∧ (r.hasMore = true ↔ r.endLine < (r.totalLines : Int)))) :=
  ⟨by decide, by decide,
   c9_paginate_total_clamped ⟨[("k", ⟨"a", ["a"], 1, 0, "t"⟩)]⟩ "k"
     ⟨"a", ["a"], 1, 0, "t"⟩ (by decide) (-5) 1000
     ⟨[("q", ⟨"b", ["b"], "u", "ti", 1, 0, []⟩)]⟩ "q"
     ⟨"b", ["b"], "u", "ti", 1, 0, []⟩ (by decide) (-5) 1000⟩

theorem evict_insert_shape {α : Type} (k0 : String) (v0 : α)
    (rest : List (String × α)) (id : String) (e : α)
    (hnodup : (((k0, v0) :: rest).map Prod.fst).Nodup)
    (hfresh : ∀ p ∈ (k0, v0) :: rest, p.1 ≠ id) :
    jsMapSet (evictOldest ((k0, v0) :: rest)) id e = rest ++ [(id, e)]
    ∧ jsMapGet (jsMapSet (evictOldest ((k0, v0) :: rest)) id e) k0 = none
    ∧ (∀ k v, (k, v) ∈ rest →
        jsMapGet (jsMapSet (evictOldest ((k0, v0) :: rest)) id e) k = some v)
    ∧ jsMapGet (jsMapSet (evictOldest ((k0, v0) :: rest)) id e) id = some e := by
  have hrest : evictOldest ((k0, v0) :: rest) = rest := evictOldest_cons k0 v0 rest
  have hfr : ∀ p ∈ rest, p.1 ≠ id :=
    fun p hp => hfresh p (List.mem_cons_of_mem _ hp)
  have hset : jsMapSet rest id e = rest ++ [(id, e)] := jsMapSet_fresh rest id e hfr
  have hnd : k0 ∉ rest.map Prod.fst ∧ (rest.map Prod.fst).Nodup := by
    simpa [List.nodup_cons] using hnodup
  have hk0id : k0 ≠ id := hfresh (k0, v0) (List.mem_cons_self _ _)
  refine ⟨by rw [hrest, hset], ?_, ?_, ?_⟩
  · rw [hrest, hset]
    apply jsMapGet_eq_none
    intro p hp
    rcases List.mem_append.mp hp with hl | hr
    · intro hpk
      exact hnd.1 (hpk ▸ List.mem_map.mpr ⟨p, hl, rfl⟩)
    · have : p = (id, e) := by simpa using hr
      subst this
      exact fun hc => hk0id hc.symm
  · intro k v hkv
    rw [hrest, hset]
    apply jsMapGet_of_mem_nodup
    · rw [List.map_append]
      refine List.Nodup.append hnd.2 (by simp) ?_
      intro a ha hb
      have hai : a = id := by simpa using hb
      obtain ⟨p, hp, hpe⟩ := List.mem_map.mp ha
      exact hfr p hp (hpe.trans hai)
    · exact List.mem_append_left _ hkv
  · rw [hrest]
    exact jsMapGet_set_self rest id e

/-- C5: from a cache holding exactly `capacity` entries (30 for the output
cache, 50 for the snapshot cache), inserting one more entry evicts exactly
the single first-inserted entry: the oldest key becomes unreachable, every
other entry and the new one remain retrievable, and the resulting order is
the old order minus the head plus the new entry at the end.  Read-only
paginate/search operations never change the store, so eviction order is
strict FIFO by insertion, unaffected by reads. -/
theorem c5_fifo_eviction
    (st : OCState) (k0 : String) (v0 : OutputEntry)
    (rest : List (String × OutputEntry))
    (content toolName id : String) (now : Nat)
    (hst : st.entries = (k0, v0) :: rest)
    (hlen : st.entries.length = 30)
    (hnodup : (st.entries.map Prod.fst).Nodup)
    (hfresh : ∀ p ∈ st.entries, p.1 ≠ id)
    (st2 : SnapCacheState) (q0 : String) (w0 : SnapEntry)
    (rest2 : List (String × SnapEntry))
    (text url title id2 : String) (now2 : Nat)
    (hst2 : st2.entries = (q0, w0) :: rest2)
    (hlen2 : st2.entries.length = 50)
    (hnodup2 : (st2.entries.map Prod.fst).Nodup)
    (hfresh2 : ∀ p ∈ st2.entries, p.1 ≠ id2) :
    ((cacheOutput st content toolName id now).1.entries
        = rest ++ [(id, ⟨content, splitLines content,
            (splitLines content).length, now, toolName⟩)]
      ∧ jsMapGet (cacheOutput st content toolName id now).1.entries k0 = none
      ∧ (∀ k v, (k, v) ∈ rest →
          jsMapGet (cacheOutput st content toolName id now).1.entries k = some v)
      ∧ jsMapGet (cacheOutput st content toolName id now).1.entries id
          = some ⟨content, splitLines content, (splitLines content).length,
              now, toolName⟩)
    ∧ ((cacheSnapshot st2 text url title id2 now2).1.entries
        = rest2 ++ [(id2, ⟨text, splitLines text, url, title,
            (splitLines text).length, now2,
            extractStructureHints (splitLines text)⟩)]
      ∧ jsMapGet (cacheSnapshot st2 text url title id2 now2).1.entries q0 = none
      ∧ (∀ k v, (k, v) ∈ rest2 →
          jsMapGet (cacheSnapshot st2 text url title id2 now2).1.entries k
            = some v)
      ∧ jsMapGet (cacheSnapshot st2 text url title id2 now2).1.entries id2
          = some ⟨text, splitLines text, url, title, (splitLines text).length,
              now2, extractStructureHints (splitLines text)⟩)
    ∧ (∀ (s : OCState) (ops : List OCReadOp), runOCReads s ops = s)
    ∧ (∀ (s : SnapCacheState) (ops : List SnapReadOp), runSnapReads s ops = s) := by
  refine ⟨?_, ?_, runOCReads_id, runSnapReads_id⟩
  · have hentries : (cacheOutput st content toolName id now).1.entries
        = jsMapSet (evictOldest ((k0, v0) :: rest)) id
            ⟨content, splitLines content, (splitLines content).length, now,
             toolName⟩ := by
      simp only [cacheOutput, hst]
      rw [if_pos (show 30 ≤ ((k0, v0) :: rest).length by rw [← hst, hlen])]
    rw [hst] at hnodup hfresh
    have h := evict_insert_shape k0 v0 rest id
      (⟨content, splitLines content, (splitLines content).length, now,
        toolName⟩ : OutputEntry) hnodup hfresh
    rw [hentries]
    exact h
  · have hentries : (cacheSnapshot st2 text url title id2 now2).1.entries
        = jsMapSet (evictOldest ((q0, w0) :: rest2)) id2
            ⟨text, splitLines text, url, title, (splitLines text).length,
             now2, extractStructureHints (splitLines text)⟩ := by
      simp only [cacheSnapshot, hst2]
      rw [if_pos (show 50 ≤ ((q0, w0) :: rest2).length by rw [← hst2, hlen2])]
    rw [hst2] at hnodup2 hfresh2
    have h := evict_insert_shape q0 w0 rest2 id2
      (⟨text, splitLines text, url, title, (splitLines text).length, now2,
        extractStructureHints (splitLines text)⟩ : SnapEntry) hnodup2 hfresh2
    rw [hentries]
    exact h

/-- A 30-entry demonstration state for the output cache. -/
def ocDemoEntry : OutputEntry := ⟨"a", ["a"], 1, 0, "t"⟩

def ocDemoRest : List (String × OutputEntry) :=
  (List.range 29).map (fun i => (toString (i + 1), ocDemoEntry))

def ocDemoState : OCState := ⟨("0", ocDemoEntry) :: ocDemoRest⟩

/-- A 50-entry demonstration state for the snapshot cache. -/
def snapDemoEntry : SnapEntry := ⟨"b", ["b"], "u", "ti", 1, 0, []⟩

def snapDemoRest : List (String × SnapEntry) :=
  (List.range 49).map (fun i => (toString (i + 1), snapDemoEntry))

def snapDemoState : SnapCacheState := ⟨("0", snapDemoEntry) :: snapDemoRest⟩

theorem c5_witness :
    ocDemoState.entries = ("0", ocDemoEntry) :: ocDemoRest
    ∧ ocDemoState.entries.length = 30
    ∧ (ocDemoState.entries.map Prod.fst).Nodup
    ∧ (∀ p ∈ ocDemoState.entries, p.1 ≠ "new1")
    ∧ snapDemoState.entries = ("0", snapDemoEntry) :: snapDemoRest
    ∧ snapDemoState.entries.length = 50
    ∧ (snapDemoState.entries.map Prod.fst).Nodup
    ∧ (∀ p ∈ snapDemoState.entries, p.1 ≠ "new2")
    ∧ (cacheOutput ocDemoState "c" "t" "new1" 5).1.entries
        = ocDemoRest ++ [("new1", ⟨"c", splitLines "c",
            (splitLines "c").length, 5, "t"⟩)]
    ∧ (cacheSnapshot snapDemoState "s" "u" "ti" "new2" 6).1.entries
        = snapDemoRest ++ [("new2", ⟨"s", splitLines "s", "u", "ti",
            (splitLines "s").length, 6,
            extractStructureHints (splitLines "s")⟩)] := by
  have h := c5_fifo_eviction ocDemoState "0" ocDemoEntry ocDemoRest
    "c" "t" "new1" 5 rfl (by decide) (by decide) (by decide)
    snapDemoState "0" snapDemoEntry snapDemoRest
    "s" "u" "ti" "new2" 6 rfl (by decide) (by decide) (by decide)
  exact ⟨rfl, by decide, by decide, by decide, rfl, by decide, by decide,
    by decide, h.1.1, h.2.1.1⟩

/-! ## The recording manager (console-cache.js, second document)

The recording registry `recordings` is a `Map` from id to `Recording`;
snapshots are written to a per-recording directory on disk, modelled here
by the `snaps` list carried in the `Recording` (in place of the `dir`
field); `readSnapshot` is lookup by index.  The MD5 `hash` function is an
explicit parameter. -/

/-- Model of `truncate(str, maxLen = CONFIG.maxLineLength = 200)`. -/
def truncate (str : String) (maxLen : Nat := 200) : String :=
  if str.length ≤ maxLen then str
  else String.mk (str.data.take maxLen) ++ "..."

/-- Model of `extractRefs(lines)`: map from the first `\[ref=([a-z0-9]+)\]/i` capture
of each line to the trimmed line, last occurrence winning. -/
def extractRefs (lines : List String) : List (String × String) :=
  lines.foldl
    (fun refs line =>
      match refFind true line.data with
      | some r => jsMapSet refs r (trimStr line)
      | none => refs)
    []

/-- Model of `StopReason`. -/
inductive StopReason where
  | idle
  | timeout
  | manual
  | error
  | max_snapshots
  deriving DecidableEq

/-- Model of `EventType` (the `content_changed` alternative is declared in the
source's typedef but never emitted by `detectEvents`). -/
inductive EventType where
  | loading_started
  | loading_ended
  | dialog_appeared
  | dialog_closed
  | error_appeared
  | content_changed
  deriving DecidableEq

/-- Model of `SignificantEvent`. -/
structure SignificantEvent where
  timeMs : Nat
  type : EventType
  details : Option String
  deriving DecidableEq

/-- One keyword-group loop of `detectEvents`: the first pattern whose
appearance or disappearance fires emits one event and breaks. -/
def scanGroup (prevLower currLower : String) (timeMs : Nat)
    (appeared disappeared : EventType) : List String → List SignificantEvent
  | [] => []
  | pattern :: rest =>
    if !strIncludes prevLower pattern && strIncludes currLower pattern then
      [⟨timeMs, appeared, some pattern⟩]
    else if strIncludes prevLower pattern && !strIncludes currLower pattern then
      [⟨timeMs, disappeared, some pattern⟩]
    else scanGroup prevLower currLower timeMs appeared disappeared rest

/-- The loading keyword group. -/
def loadingPatterns : List String := ["loading", "spinner", "skeleton", "progressbar"]

/-- The dialog keyword group. -/
def dialogPatterns : List String := ["dialog", "modal", "alertdialog", "popup"]

/-- Model of `detectEvents(prev, curr, timeMs)`. -/
def detectEvents (prev curr : String) (timeMs : Nat) : List SignificantEvent :=
  let prevLower := lowerStr prev
  let currLower := lowerStr curr
  scanGroup prevLower currLower timeMs .loading_started .loading_ended
      loadingPatterns
    ++ scanGroup prevLower currLower timeMs .dialog_appeared .dialog_closed
      dialogPatterns
    ++ (if !strIncludes prevLower "error" && strIncludes currLower "error" then
          [⟨timeMs, .error_appeared, none⟩]
        else [])

/-- Model of `actionParams` as stored by `createRecording` (free-text `text`
redacted by the caller). -/
structure StoredParams where
  tabId : String
  action : String
  ref : Option String
  element : Option String
  text : Option String
  url : Option String
  key : Option String
  deriving DecidableEq

/-- One `Recording` of the registry; `snaps` stands for the on-disk
snapshot directory `dir`. -/
structure Recording where
  id : String
  actionType : String
  actionParams : StoredParams
  startedAt : Nat
  endedAt : Option Nat
  stoppedReason : Option StopReason
  totalSnapshots : Nat
  snapshotHashes : List String
  significantEvents : List SignificantEvent
  isRecording : Bool
  lastChangeAt : Nat
  snaps : List String
  deriving DecidableEq

/-- The fresh `Recording` object built by `createRecording`. -/
def freshRecording (id actionType : String) (ap : StoredParams) (now : Nat) :
    Recording :=
  ⟨id, actionType, ap, now, none, none, 0, [], [], true, now, []⟩

/-- The mutation performed by `stopRecording(recordingId, reason)` on the
recording it finds: deactivate and overwrite `endedAt`/`stoppedReason`. -/
def stopRecording (now : Nat) (reason : StopReason) (rec : Recording) :
    Recording :=
  { rec with isRecording := false, endedAt := some now,
             stoppedReason := some reason }

/-- Model of `readSnapshot(recordingId, index)`: read the index-th snapshot file. -/
def readSnapshot (snaps : List String) (index : Nat) : Option String :=
  snaps.get? index

/-- The events accumulated by `addSnapshot` when content changed: for a
non-first snapshot whose predecessor reads back truthy (non-empty), append
the detector's events. -/
def eventsAfter (rec : Recording) (content : String) (now : Nat)
    (index : Nat) : List SignificantEvent :=
  if 0 < index then
    match readSnapshot rec.snaps (index - 1) with
    | some prevContent =>
      if prevContent ≠ "" then
        rec.significantEvents ++
          detectEvents prevContent content (now - rec.startedAt)
      else rec.significantEvents
    | none => rec.significantEvents
  else rec.significantEvents

/-- Return record of `addSnapshot`. -/
structure SnapResult where
  index : Nat
  hasChanged : Bool
  hash : String
  deriving DecidableEq

/-- Model of `addSnapshot(recordingId, content)` on the recording it finds: inactive
recordings are untouched; at `CONFIG.maxSnapshots = 200` the recording is
stopped with `max_snapshots` and nothing is persisted; otherwise the
change flag is computed against the last stored hash, events are detected
on change, and the snapshot and its hash are appended. -/
def addSnapshot (hash : String → String) (now : Nat) (rec : Recording)
    (content : String) : Recording × Option SnapResult :=
  if !rec.isRecording then (rec, none)
  else if 200 ≤ rec.totalSnapshots then
    (stopRecording now .max_snapshots rec, none)
  else
    let index := rec.totalSnapshots
    let contentHash := hash content
    let hasChanged := rec.snapshotHashes.isEmpty ||
      rec.snapshotHashes.getLast? != some contentHash
    let rec1 :=
      if hasChanged then
        { rec with lastChangeAt := now,
                   significantEvents := eventsAfter rec content now index }
      else rec
    ({ rec1 with snaps := rec1.snaps ++ [content],
                 snapshotHashes := rec1.snapshotHashes ++ [contentHash],
                 totalSnapshots := rec1.totalSnapshots + 1 },
     some ⟨index, hasChanged, contentHash⟩)

/-- The operations that mutate one recording after creation. -/
inductive RecOp where
  | snap (now : Nat) (content : String)
  | stop (now : Nat) (reason : StopReason)
  deriving DecidableEq

/-- Apply one operation to a recording. -/
def applyRecOp (hash : String → String) (rec : Recording) : RecOp → Recording
  | .snap now content => (addSnapshot hash now rec content).1
  | .stop now reason => stopRecording now reason rec

/-- Apply a sequence of operations to a recording. -/
def applyRecOps (hash : String → String) (rec : Recording)
    (ops : List RecOp) : Recording :=
  ops.foldl (applyRecOp hash) rec

/-! ## The diff engine (`calculateDiff`) -/

/-- One added/removed line report. -/
structure DiffLine where
  line : Nat
  content : String
  deriving DecidableEq

/-- One changed-element report (`{ref, from, to}`). -/
structure ChangedRef where
  ref : String
  fromText : String
  toText : String
  deriving DecidableEq

/-- The `summary` record. -/
structure DiffSummary where
  addedCount : Nat
  removedCount : Nat
  changedCount : Nat
  deriving DecidableEq

/-- A successful `calculateDiff` result. -/
structure DiffOk where
  fromIndex : Nat
  toIndex : Nat
  summary : DiffSummary
  added : List DiffLine
  removed : List DiffLine
  changed : List ChangedRef
  deriving DecidableEq

/-- The added/removed loops of `calculateDiff`: report (1-based index,
truncated text) of every line of the scanned side absent from the other
side's line set. -/
def collectMissing (otherLines : List String) :
    Nat → List String → List DiffLine
  | _, [] => []
  | i, line :: rest =>
    if otherLines.contains line then collectMissing otherLines (i + 1) rest
    else ⟨i + 1, truncate line⟩ :: collectMissing otherLines (i + 1) rest

/-- The diff computation of `calculateDiff` on the two snapshot contents
(lines 600–635 of the source): set-membership line diff plus
changed-element diff over the extracted ref maps. -/
def calculateDiffContents (fromContent toContent : String) : DiffOk :=
  let fromLines := splitLines fromContent
  let toLines := splitLines toContent
  let added := collectMissing fromLines 0 toLines
  let removed := collectMissing toLines 0 fromLines
  let fromRefs := extractRefs fromLines
  let toRefs := extractRefs toLines
  let changed := fromRefs.filterMap (fun p =>
    match jsMapGet toRefs p.1 with
    | some t => if t ≠ p.2 then some ⟨p.1, truncate p.2 80, truncate t 80⟩
                else none
    | none => none)
  ⟨0, 0, ⟨added.length, removed.length, changed.length⟩,
   added.take 30, removed.take 30, changed.take 30⟩

/-- Model of `calculateDiff(recordingId, fromIndex, toIndex = null)` on the found
recording's snapshots: a null `toIndex` means diff `max(0, fromIndex-1)`
against `fromIndex`; a missing — or empty, hence falsy — snapshot content
yields the `Snapshot not found` error.  (The registry lookup of
`recordingId`, which errors on an unknown id, happens before this.) -/
def calculateDiff (snaps : List String) (fromIndex : Nat)
    (toIndex : Option Nat := none) : CacheRead DiffOk :=
  let fi := match toIndex with | none => fromIndex - 1 | some _ => fromIndex
  let ti := match toIndex with | none => fromIndex | some t => t
  match readSnapshot snaps fi, readSnapshot snaps ti with
  | some fromContent, some toContent =>
    if fromContent = "" ∨ toContent = "" then .error "Snapshot not found"
    else
      let body := calculateDiffContents fromContent toContent
      .ok ⟨fi, ti, body.summary, body.added, body.removed, body.changed⟩
  | _, _ => .error "Snapshot not found"

/-! ## Diff engine lemmas and claims C6, C7, C10 -/

theorem contains_of_mem (L : List String) (x : String) (hx : x ∈ L) :
    L.contains x = true := by
  show L.elem x = true
  exact List.elem_iff.mpr hx

theorem collectMissing_eq_nil (L : List String) (i : Nat) (M : List String)
    (h : ∀ x ∈ M, L.contains x = true) : collectMissing L i M = [] := by
  induction M generalizing i with
  | nil => rfl
  | cons a rest ih =>
    simp only [collectMissing, h a (List.mem_cons_self a rest), if_true]
    exact ih (i + 1) (fun x hx => h x (List.mem_cons_of_mem a hx))

theorem jsMapSet_keys {α : Type} (l : List (String × α)) (k : String) (v : α) :
    (jsMapSet l k v).map Prod.fst =
      if l.any (fun p => p.1 == k) then l.map Prod.fst
      else l.map Prod.fst ++ [k] := by
  simp only [jsMapSet]
  split
  · rw [List.map_map]
    congr 1
    funext p
    by_cases hp : p.1 = k
    · have hb : (p.1 == k) = true := by simp [hp]
      simp [hb, hp]
    · simp [hp]
  · simp

theorem jsMapSet_keys_nodup {α : Type} (l : List (String × α)) (k : String)
    (v : α) (h : (l.map Prod.fst).Nodup) :
    ((jsMapSet l k v).map Prod.fst).Nodup := by
  rw [jsMapSet_keys]
  split
  · exact h
  · rename_i hany
    refine List.Nodup.append h (by simp) ?_
    intro a ha hb
    have hak : a = k := by simpa using hb
    obtain ⟨p, hp, hpe⟩ := List.mem_map.mp ha
    exact hany (List.any_eq_true.mpr ⟨p, hp, by simp [hpe, hak]⟩)

theorem extractRefs_keys_nodup (lines : List String) :
    ((extractRefs lines).map Prod.fst).Nodup := by
  suffices hgen : ∀ acc : List (String × String), (acc.map Prod.fst).Nodup →
      ((lines.foldl (fun refs line =>
        match refFind true line.data with
        | some r => jsMapSet refs r (trimStr line)
        | none => refs) acc).map Prod.fst).Nodup by
    exact hgen [] (by simp)
  induction lines with
  | nil => intro acc hacc; simpa using hacc
  | cons line rest ih =>
    intro acc hacc
    simp only [List.foldl_cons]
    apply ih
    cases hr : refFind true line.data with
    | none => simpa [hr] using hacc
    | some r => simpa [hr] using jsMapSet_keys_nodup acc r (trimStr line) hacc

theorem collectMissing_self (X : String) :
    collectMissing (splitLines X) 0 (splitLines X) = [] :=
  collectMissing_eq_nil _ 0 _ (fun x hx => contains_of_mem _ x hx)

/-- C6: diffing any snapshot text against itself yields empty `added`,
`removed` and `changed` lists. -/
theorem c6_diff_self_empty (X : String) :
    (calculateDiffContents X X).added = []
    ∧ (calculateDiffContents X X).removed = []
    ∧ (calculateDiffContents X X).changed = [] := by
  refine ⟨?_, ?_, ?_⟩ <;>
    simp [calculateDiffContents, collectMissing_self X]
  all_goals
    intro a b hab
    rw [jsMapGet_of_mem_nodup (extractRefs_keys_nodup (splitLines X)) hab]
    simp

/-- C7: for all snapshot texts `A` and `B`, the multiset of line texts in
`diff(A, B).added` equals the multiset of line texts in
`diff(B, A).removed`, and symmetrically — in fact the reported lists are
identical, both being the lines of `B` absent from `A`'s line set (resp.
of `A` absent from `B`'s). -/
theorem c7_diff_added_removed_symmetry (A B : String) :
    (((calculateDiffContents A B).added.map DiffLine.content : List String) :
        Multiset String)
      = ((calculateDiffContents B A).removed.map DiffLine.content : List String)
    ∧ (((calculateDiffContents A B).removed.map DiffLine.content : List String) :
        Multiset String)
      = ((calculateDiffContents B A).added.map DiffLine.content : List String) :=
  ⟨rfl, rfl⟩

/-- C10 counterexample: snapshot 0 exists but is the empty string; the
single-index call `calculateDiff(0)` then returns the `Snapshot not found`
error (the empty content is falsy), not an empty diff. -/
theorem c10_counterexample :
    readSnapshot [""] 0 = some ""
    ∧ calculateDiff [""] 0 none = .error "Snapshot not found" := by
  constructor
  · rfl
  · simp [calculateDiff, readSnapshot]

/-- C10 amended: `calculateDiff` with a single index `i` behaves exactly
as the explicit call on `max(0, i-1)` and `i`; in particular for `i = 0`
it diffs snapshot 0 against itself and, provided snapshot 0 is present
and non-empty (readable as a truthy string), returns an empty diff.  If
snapshot 0 is missing or empty the call returns the `Snapshot not found`
error instead. -/
theorem c10_diff_default_index_amended :
    (∀ (snaps : List String) (i : Nat),
        calculateDiff snaps i none = calculateDiff snaps (i - 1) (some i))
    ∧ (∀ (snaps : List String) (X : String),
        readSnapshot snaps 0 = some X → X ≠ "" →
        calculateDiff snaps 0 none = .ok ⟨0, 0, ⟨0, 0, 0⟩, [], [], []⟩) := by
  constructor
  · intro snaps i
    rfl
  · intro snaps X h hne
    simp only [calculateDiff, Nat.zero_sub, h]
    rw [if_neg (fun hc => hne (hc.elim id id))]
    simp [calculateDiffContents, collectMissing_self X]
    all_goals
      intro a b hab
      rw [jsMapGet_of_mem_nodup (extractRefs_keys_nodup (splitLines X)) hab]
      simp

theorem c10_witness :
    readSnapshot ["a"] 0 = some "a" ∧ ("a" : String) ≠ ""
    ∧ calculateDiff ["a"] 0 none = .ok ⟨0, 0, ⟨0, 0, 0⟩, [], [], []⟩ :=
  ⟨rfl, by decide,
   c10_diff_default_index_amended.2 ["a"] "a" rfl (by decide)⟩

/-! ## Event detector lemmas and claim C8 -/

theorem prefixOfB_append (xs ys hay : List Char)
    (h : prefixOfB (xs ++ ys) hay = true) : prefixOfB xs hay = true := by
  induction xs generalizing hay with
  | nil => rfl
  | cons a as ih =>
    cases hay with
    | nil => simp [prefixOfB] at h
    | cons b bs =>
      simp only [List.cons_append, prefixOfB, Bool.and_eq_true] at h ⊢
      exact ⟨h.1, ih bs h.2⟩

theorem subOfB_nil (hay : List Char) : subOfB [] hay = true := by
  cases hay <;> simp [subOfB, prefixOfB]

theorem subOfB_append (xs ys hay : List Char)
    (h : subOfB (xs ++ ys) hay = true) : subOfB xs hay = true := by
  induction hay with
  | nil =>
    cases xs with
    | nil => exact subOfB_nil []
    | cons a as => simp [subOfB, prefixOfB] at h
  | cons c rest ih =>
    simp only [subOfB, Bool.or_eq_true] at h ⊢
    rcases h with h | h
    · exact Or.inl (prefixOfB_append xs ys _ h)
    · exact Or.inr (ih h)

theorem strIncludes_loading (s : String)
    (h : strIncludes s "loading..." = true) :
    strIncludes s "loading" = true := by
  have hd : ("loading..." : String).data
      = ("loading" : String).data ++ ("..." : String).data := by decide
  show subOfB ("loading" : String).data s.data = true
  have h2 : subOfB ("loading..." : String).data s.data = true := h
  rw [hd] at h2
  exact subOfB_append _ _ _ h2

theorem scanGroup_head_appeared (prevL currL : String) (t : Nat)
    (a d : EventType) (p : String) (rest : List String)
    (h1 : strIncludes prevL p = false) (h2 : strIncludes currL p = true) :
    scanGroup prevL currL t a d (p :: rest) = [⟨t, a, some p⟩] := by
  simp [scanGroup, h1, h2]

theorem scanGroup_head_disappeared (prevL currL : String) (t : Nat)
    (a d : EventType) (p : String) (rest : List String)
    (h1 : strIncludes prevL p = true) (h2 : strIncludes currL p = false) :
    scanGroup prevL currL t a d (p :: rest) = [⟨t, d, some p⟩] := by
  simp [scanGroup, h1, h2]

theorem scanGroup_eq_nil (prevL currL : String) (t : Nat) (a d : EventType)
    (ps : List String)
    (h : ∀ p ∈ ps, strIncludes prevL p = strIncludes currL p) :
    scanGroup prevL currL t a d ps = [] := by
  induction ps with
  | nil => rfl
  | cons p rest ih =>
    have hp := h p (List.mem_cons_self p rest)
    have htail := fun q hq => h q (List.mem_cons_of_mem p hq)
    simp only [scanGroup, hp]
    cases hcur : strIncludes currL p <;> simpa [hcur] using ih htail

theorem scanGroup_mem_type (prevL currL : String) (t : Nat) (a d : EventType)
    (ps : List String) (ev : SignificantEvent)
    (hev : ev ∈ scanGroup prevL currL t a d ps) :
    ev.type = a ∨ ev.type = d := by
  induction ps with
  | nil => simp [scanGroup] at hev
  | cons p rest ih =>
    simp only [scanGroup] at hev
    split at hev
    · left
      simp at hev
      rw [hev]
    · split at hev
      · right
        simp at hev
        rw [hev]
      · exact ih hev

theorem scanGroup_length_le (prevL currL : String) (t : Nat)
    (a d : EventType) (ps : List String) :
    (scanGroup prevL currL t a d ps).length ≤ 1 := by
  induction ps with
  | nil => simp [scanGroup]
  | cons p rest ih =>
    simp only [scanGroup]
    split
    · simp
    · split
      · simp
      · exact ih

/-- C8 counterexample: a previous text without the substring "loading" and
a current text containing "loading..." for which the detector returns two
events, not exactly one — the current text also introduces a dialog
keyword. -/
theorem c8_counterexample :
    strIncludes (lowerStr "") "loading" = false
    ∧ strIncludes (lowerStr "loading... modal") "loading..." = true
    ∧ detectEvents "" "loading... modal" 0
        = [⟨0, .loading_started, some "loading"⟩,
           ⟨0, .dialog_appeared, some "modal"⟩] :=
  ⟨by decide, by decide, by decide⟩

/-- C8 amended: provided the two texts additionally agree on every dialog
keyword and introduce no new "error" substring, a loading appearance
(previous lacks "loading", current contains "loading...") produces exactly
one `loading_started` event, the reverse transition exactly one
`loading_ended`, and no keyword transition at all produces no events; in
general each keyword group contributes at most one event per comparison
(the first matching keyword wins). -/
theorem c8_detect_events_amended :
    (∀ (prev curr : String) (t : Nat),
        strIncludes (lowerStr prev) "loading" = false →
        strIncludes (lowerStr curr) "loading..." = true →
        (∀ p ∈ dialogPatterns,
          strIncludes (lowerStr prev) p = strIncludes (lowerStr curr) p) →
        (strIncludes (lowerStr curr) "error" = true →
          strIncludes (lowerStr prev) "error" = true) →
        detectEvents prev curr t = [⟨t, .loading_started, some "loading"⟩])
    ∧ (∀ (prev curr : String) (t : Nat),
        strIncludes (lowerStr prev) "loading..." = true →
        strIncludes (lowerStr curr) "loading" = false →
        (∀ p ∈ dialogPatterns,
          strIncludes (lowerStr prev) p = strIncludes (lowerStr curr) p) →
        (strIncludes (lowerStr curr) "error" = true →
          strIncludes (lowerStr prev) "error" = true) →
        detectEvents prev curr t = [⟨t, .loading_ended, some "loading"⟩])
    ∧ (∀ (prev curr : String) (t : Nat),
        (∀ p ∈ loadingPatterns ++ dialogPatterns ++ ["error"],
          strIncludes (lowerStr prev) p = strIncludes (lowerStr curr) p) →
        detectEvents prev curr t = [])
    ∧ (∀ (prev curr : String) (t : Nat),
        ((detectEvents prev curr t).filter (fun ev =>
            decide (ev.type = .loading_started ∨ ev.type = .loading_ended))).length ≤ 1
        ∧ ((detectEvents prev curr t).filter (fun ev =>
            decide (ev.type = .dialog_appeared ∨ ev.type = .dialog_closed))).length ≤ 1
        ∧ ((detectEvents prev curr t).filter (fun ev =>
            decide (ev.type = .error_appeared))).length ≤ 1) := by
  have herrNil : ∀ (prev curr : String) (t : Nat),
      (strIncludes (lowerStr curr) "error" = true →
        strIncludes (lowerStr prev) "error" = true) →
      (if !strIncludes (lowerStr prev) "error" &&
            strIncludes (lowerStr curr) "error" then
          [(⟨t, .error_appeared, none⟩ : SignificantEvent)]
        else []) = [] := by
    intro prev curr t h4
    cases hce : strIncludes (lowerStr curr) "error"
    · simp [hce]
    · simp [hce, h4 hce]
  refine ⟨?_, ?_, ?_, ?_⟩
  · intro prev curr t h1 h2 h3 h4
    have h2l : strIncludes (lowerStr curr) "loading" = true :=
      strIncludes_loading _ h2
    simp only [detectEvents, loadingPatterns]
    rw [scanGroup_head_appeared _ _ _ _ _ _ _ h1 h2l,
        scanGroup_eq_nil _ _ _ _ _ _ h3, herrNil prev curr t h4]
    simp
  · intro prev curr t h1 h2 h3 h4
    have h1l : strIncludes (lowerStr prev) "loading" = true :=
      strIncludes_loading _ h1
    simp only [detectEvents, loadingPatterns]
    rw [scanGroup_head_disappeared _ _ _ _ _ _ _ h1l h2,
        scanGroup_eq_nil _ _ _ _ _ _ h3, herrNil prev curr t h4]
    simp
  · intro prev curr t h
    have hl : ∀ p ∈ loadingPatterns,
        strIncludes (lowerStr prev) p = strIncludes (lowerStr curr) p :=
      fun p hp => h p (by simp [hp])
    have hd : ∀ p ∈ dialogPatterns,
        strIncludes (lowerStr prev) p = strIncludes (lowerStr curr) p :=
      fun p hp => h p (by simp [hp])
    have he : strIncludes (lowerStr curr) "error" = true →
        strIncludes (lowerStr prev) "error" = true := by
      intro hc
      rw [h "error" (by simp), hc]
    simp only [detectEvents]
    rw [scanGroup_eq_nil _ _ _ _ _ _ hl, scanGroup_eq_nil _ _ _ _ _ _ hd,
        herrNil prev curr t he]
    simp
  · intro prev curr t
    simp only [detectEvents, List.filter_append]
    set lg := scanGroup (lowerStr prev) (lowerStr curr) t .loading_started
      .loading_ended loadingPatterns with hlg
    set dg := scanGroup (lowerStr prev) (lowerStr curr) t .dialog_appeared
      .dialog_closed dialogPatterns with hdg
    set eg := (if !strIncludes (lowerStr prev) "error" &&
          strIncludes (lowerStr curr) "error" then
        [(⟨t, .error_appeared, none⟩ : SignificantEvent)]
      else []) with heg
    have heg_cases : eg = [] ∨ eg = [⟨t, .error_appeared, none⟩] := by
      rw [heg]
      split
      · exact Or.inr rfl
      · exact Or.inl rfl
    refine ⟨?_, ?_, ?_⟩
    · have h1 : (List.filter (fun ev =>
          decide (ev.type = .loading_started ∨ ev.type = .loading_ended))
            lg).length ≤ 1 :=
        le_trans (List.length_filter_le _ _) (scanGroup_length_le _ _ _ _ _ _)
      have h2 : List.filter (fun ev =>
          decide (ev.type = .loading_started ∨ ev.type = .loading_ended))
            dg = [] := by
        apply List.filter_eq_nil_iff.mpr
        intro ev hev
        rcases scanGroup_mem_type _ _ _ _ _ _ ev hev with ht | ht <;>
          simp [ht]
      have h3 : List.filter (fun ev =>
          decide (ev.type = .loading_started ∨ ev.type = .loading_ended))
            eg = [] := by
        rcases heg_cases with hc | hc <;> simp [hc]
      simp only [List.length_append, h2, h3]
      simpa using h1
    · have h1 : List.filter (fun ev =>
          decide (ev.type = .dialog_appeared ∨ ev.type = .dialog_closed))
            lg = [] := by
        apply List.filter_eq_nil_iff.mpr
        intro ev hev
        rcases scanGroup_mem_type _ _ _ _ _ _ ev hev with ht | ht <;>
          simp [ht]
      have h2 : (List.filter (fun ev =>
          decide (ev.type = .dialog_appeared ∨ ev.type = .dialog_closed))
            dg).length ≤ 1 :=
        le_trans (List.length_filter_le _ _) (scanGroup_length_le _ _ _ _ _ _)
      have h3 : List.filter (fun ev =>
          decide (ev.type = .dialog_appeared ∨ ev.type = .dialog_closed))
            eg = [] := by
        rcases heg_cases with hc | hc <;> simp [hc]
      simp only [List.length_append, h1, h3]
      simpa using h2
    · have h1 : List.filter (fun ev => decide (ev.type = .error_appeared))
          lg = [] := by
        apply List.filter_eq_nil_iff.mpr
        intro ev hev
        rcases scanGroup_mem_type _ _ _ _ _ _ ev hev with ht | ht <;>
          simp [ht]
      have h2 : List.filter (fun ev => decide (ev.type = .error_appeared))
          dg = [] := by
        apply List.filter_eq_nil_iff.mpr
        intro ev hev
        rcases scanGroup_mem_type _ _ _ _ _ _ ev hev with ht | ht <;>
          simp [ht]
      have h3 : (List.filter (fun ev => decide (ev.type = .error_appeared))
          eg).length ≤ 1 := by
        rcases heg_cases with hc | hc <;> simp [hc]
      simp only [List.length_append, h1, h2]
      simpa using h3

theorem c8_witness :
    strIncludes (lowerStr "idle page") "loading" = false
    ∧ strIncludes (lowerStr "loading...") "loading..." = true
    ∧ detectEvents "idle page" "loading..." 7
        = [⟨7, .loading_started, some "loading"⟩]
    ∧ detectEvents "loading..." "done" 8
        = [⟨8, .loading_ended, some "loading"⟩]
    ∧ detectEvents "same" "same" 9 = [] :=
  ⟨by decide, by decide,
   c8_detect_events_amended.1 "idle page" "loading..." 7 (by decide)
     (by decide) (by decide) (by decide),
   c8_detect_events_amended.2.1 "loading..." "done" 8 (by decide)
     (by decide) (by decide) (by decide),
   c8_detect_events_amended.2.2.1 "same" "same" 9 (by decide)⟩

/-! ## Recording state machine: claims C2 and C3 -/

theorem addSnapshot_of_not_recording (hash : String → String) (now : Nat)
    (rec : Recording) (content : String) (h : rec.isRecording = false) :
    addSnapshot hash now rec content = (rec, none) := by
  simp [addSnapshot, h]

theorem applyRecOp_not_recording (hash : String → String) (rec : Recording)
    (op : RecOp) (h : rec.isRecording = false) :
    (applyRecOp hash rec op).isRecording = false := by
  cases op with
  | snap now content =>
    simp [applyRecOp, addSnapshot_of_not_recording hash now rec content h, h]
  | stop now reason => simp [applyRecOp, stopRecording]

/-- C2 counterexample: a recording stopped with reason `manual`; a second
`stopRecording` call with reason `error` at a later time overwrites both
the stop reason and the end time of the already-stopped recording. -/
theorem c2_counterexample :
    (stopRecording 1 .manual
        (freshRecording "r" "wait" ⟨"abc123", "wait", none, none, none,
          none, none⟩ 0)).isRecording = false
    ∧ (stopRecording 1 .manual
        (freshRecording "r" "wait" ⟨"abc123", "wait", none, none, none,
          none, none⟩ 0)).stoppedReason = some .manual
    ∧ (stopRecording 1 .manual
        (freshRecording "r" "wait" ⟨"abc123", "wait", none, none, none,
          none, none⟩ 0)).endedAt = some 1
    ∧ (stopRecording 2 .error (stopRecording 1 .manual
        (freshRecording "r" "wait" ⟨"abc123", "wait", none, none, none,
          none, none⟩ 0))).stoppedReason = some .error
    ∧ (stopRecording 2 .error (stopRecording 1 .manual
        (freshRecording "r" "wait" ⟨"abc123", "wait", none, none, none,
          none, none⟩ 0))).endedAt = some 2 := by
  refine ⟨rfl, rfl, rfl, rfl, rfl⟩

/-- C2 amended: the active flag transitions `true → false` at most once
and is never reversed — once stopped, a recording stays stopped under any
sequence of operations, and `addSnapshot` leaves a stopped recording
entirely unchanged (no snapshot is appended after deactivation).  However,
a subsequent `stopRecording` call on an already-stopped recording does
overwrite its `stoppedReason` and `endedAt` with the new reason and time. -/
theorem c2_stopped_terminal_amended :
    (∀ (hash : String → String) (rec : Recording) (ops : List RecOp),
        rec.isRecording = false →
        (applyRecOps hash rec ops).isRecording = false)
    ∧ (∀ (hash : String → String) (now : Nat) (rec : Recording)
        (content : String), rec.isRecording = false →
        addSnapshot hash now rec content = (rec, none))
    ∧ (∀ (now : Nat) (reason : StopReason) (rec : Recording),
        (stopRecording now reason rec).stoppedReason = some reason
        ∧ (stopRecording now reason rec).endedAt = some now
        ∧ (stopRecording now reason rec).isRecording = false) := by
  refine ⟨?_, ?_, ?_⟩
  · intro hash rec ops h
    induction ops generalizing rec with
    | nil => exact h
    | cons op rest ih =>
      exact ih (applyRecOp hash rec op) (applyRecOp_not_recording hash rec op h)
  · exact addSnapshot_of_not_recording
  · intro now reason rec
    exact ⟨rfl, rfl, rfl⟩

theorem c2_witness :
    (stopRecording 1 .manual
        (freshRecording "r" "wait" ⟨"abc123", "wait", none, none, none,
          none, none⟩ 0)).isRecording = false
    ∧ (applyRecOps (fun s => s)
        (stopRecording 1 .manual
          (freshRecording "r" "wait" ⟨"abc123", "wait", none, none, none,
            none, none⟩ 0))
        [.snap 2 "x", .stop 3 .manual, .snap 4 "y"]).isRecording = false
    ∧ addSnapshot (fun s => s) 2
        (stopRecording 1 .manual
          (freshRecording "r" "wait" ⟨"abc123", "wait", none, none, none,
            none, none⟩ 0)) "x"
      = (stopRecording 1 .manual
          (freshRecording "r" "wait" ⟨"abc123", "wait", none, none, none,
            none, none⟩ 0), none)
    ∧ (stopRecording 5 .idle
        (freshRecording "r" "wait" ⟨"abc123", "wait", none, none, none,
          none, none⟩ 0)).stoppedReason = some .idle :=
  ⟨rfl,
   c2_stopped_terminal_amended.1 (fun s => s)
     (stopRecording 1 .manual
       (freshRecording "r" "wait" ⟨"abc123", "wait", none, none, none,
         none, none⟩ 0))
     [.snap 2 "x", .stop 3 .manual, .snap 4 "y"] rfl,
   c2_stopped_terminal_amended.2.1 (fun s => s) 2
     (stopRecording 1 .manual
       (freshRecording "r" "wait" ⟨"abc123", "wait", none, none, none,
         none, none⟩ 0)) "x" rfl,
   (c2_stopped_terminal_amended.2.2 5 .idle
     (freshRecording "r" "wait" ⟨"abc123", "wait", none, none, none,
       none, none⟩ 0)).1⟩

theorem addSnapshot_total_lt (hash : String → String) (now : Nat)
    (rec : Recording) (content : String) (hrec : rec.isRecording = true)
    (hlt : rec.totalSnapshots < 200) :
    (addSnapshot hash now rec content).1.totalSnapshots
      = rec.totalSnapshots + 1 := by
  simp only [addSnapshot, hrec, Bool.not_true, Bool.false_eq_true, if_false]
  rw [if_neg (show ¬200 ≤ rec.totalSnapshots by omega)]
  split <;> simp

theorem addSnapshot_total_ge (hash : String → String) (now : Nat)
    (rec : Recording) (content : String) (hrec : rec.isRecording = true)
    (hge : 200 ≤ rec.totalSnapshots) :
    (addSnapshot hash now rec content).1.totalSnapshots
      = rec.totalSnapshots := by
  simp only [addSnapshot, hrec, Bool.not_true, Bool.false_eq_true, if_false]
  rw [if_pos hge]
  simp [stopRecording]

/-- C3: `totalSnapshots` never exceeds the fixed maximum of 200 under any
sequence of operations, and an `addSnapshot` call finding an active
recording already at (or beyond) the maximum stops it with reason
`max_snapshots` without persisting the snapshot: the stored snapshots,
their hashes and the count are unchanged and `null` is returned. -/
theorem c3_max_snapshots_invariant :
    (∀ (hash : String → String) (rec : Recording) (ops : List RecOp),
        rec.totalSnapshots ≤ 200 →
        (applyRecOps hash rec ops).totalSnapshots ≤ 200)
    ∧ (∀ (hash : String → String) (now : Nat) (rec : Recording)
        (content : String),
        rec.isRecording = true → 200 ≤ rec.totalSnapshots →
        (addSnapshot hash now rec content).1.isRecording = false
        ∧ (addSnapshot hash now rec content).1.stoppedReason
            = some .max_snapshots
        ∧ (addSnapshot hash now rec content).1.endedAt = some now
        ∧ (addSnapshot hash now rec content).1.snaps = rec.snaps
        ∧ (addSnapshot hash now rec content).1.snapshotHashes
            = rec.snapshotHashes
        ∧ (addSnapshot hash now rec content).1.totalSnapshots
            = rec.totalSnapshots
        ∧ (addSnapshot hash now rec content).2 = none) := by
  constructor
  · intro hash rec ops h
    induction ops generalizing rec with
    | nil => exact h
    | cons op rest ih =>
      refine ih (applyRecOp hash rec op) ?_
      cases op with
      | snap now content =>
        simp only [applyRecOp]
        cases hrec : rec.isRecording with
        | false =>
          rw [addSnapshot_of_not_recording hash now rec content hrec]
          exact h
        | true =>
          by_cases hlt : rec.totalSnapshots < 200
          · rw [addSnapshot_total_lt hash now rec content hrec hlt]
            omega
          · rw [addSnapshot_total_ge hash now rec content hrec (by omega)]
            exact h
      | stop now reason => simpa [applyRecOp, stopRecording] using h
  · intro hash now rec content hrec h200
    simp only [addSnapshot, hrec, Bool.not_true, Bool.false_eq_true,
      if_false, if_pos h200]
    simp [stopRecording]

theorem c3_witness :
    (freshRecording "r" "wait" ⟨"abc123", "wait", none, none, none, none,
        none⟩ 0).totalSnapshots ≤ 200
    ∧ (applyRecOps (fun s => s)
        (freshRecording "r" "wait" ⟨"abc123", "wait", none, none, none,
          none, none⟩ 0)
        [.snap 1 "a", .snap 2 "b", .stop 3 .manual]).totalSnapshots ≤ 200
    ∧ ({ freshRecording "r" "wait" ⟨"abc123", "wait", none, none, none,
          none, none⟩ 0 with totalSnapshots := 200 } :
        Recording).isRecording = true
    ∧ 200 ≤ ({ freshRecording "r" "wait" ⟨"abc123", "wait", none, none,
          none, none, none⟩ 0 with totalSnapshots := 200 } :
        Recording).totalSnapshots
    ∧ (addSnapshot (fun s => s) 7
        ({ freshRecording "r" "wait" ⟨"abc123", "wait", none, none, none,
            none, none⟩ 0 with totalSnapshots := 200 }) "x").1.stoppedReason
        = some .max_snapshots
    ∧ (addSnapshot (fun s => s) 7
        ({ freshRecording "r" "wait" ⟨"abc123", "wait", none, none, none,
            none, none⟩ 0 with totalSnapshots := 200 }) "x").2 = none :=
  ⟨by decide,
   c3_max_snapshots_invariant.1 (fun s => s)
     (freshRecording "r" "wait" ⟨"abc123", "wait", none, none, none, none,
       none⟩ 0)
     [.snap 1 "a", .snap 2 "b", .stop 3 .manual] (by decide),
   rfl, by decide,
   (c3_max_snapshots_invariant.2 (fun s => s) 7
     ({ freshRecording "r" "wait" ⟨"abc123", "wait", none, none, none,
         none, none⟩ 0 with totalSnapshots := 200 }) "x" rfl
     (by decide)).2.1,
   (c3_max_snapshots_invariant.2 (fun s => s) 7
     ({ freshRecording "r" "wait" ⟨"abc123", "wait", none, none, none,
         none, none⟩ 0 with totalSnapshots := 200 }) "x" rfl
     (by decide)).2.2.2.2.2.2⟩

/-! ## Recording registry and the browser_action_record handler (C4)

The handler is modelled through tabId validation, recording creation,
page lookup, action-field validation and the one-shot action itself; the
subsequent time-driven snapshot loop is outside this model.  External
effects are explicit parameters: `freshId` (the random recording id),
`now`, `pageFound` (whether the tab lookup produced a page) and
`actionResult` (`none` when the performed browser action succeeds,
`some msg` when it throws `msg`).  The list of `BrowserCall`s records
which browser actions were actually attempted. -/

/-- The registry `recordings` map. -/
structure RegState where
  entries : List (String × Recording)
  deriving DecidableEq

/-- Model of `deleteRecording(recordingId)` (the on-disk directory removal is a
no-op in the model). -/
def deleteRecording (st : RegState) (id : String) : RegState :=
  ⟨jsMapDelete st.entries id⟩

/-- Model of `createRecording(actionType, actionParams)`: evict the oldest
recording at capacity (`CONFIG.maxRecordings = 5`), then store a fresh
active recording under the (random, here explicit) id. -/
def createRecording (st : RegState) (freshId : String) (now : Nat)
    (actionType : String) (ap : StoredParams) : RegState :=
  let entries1 :=
    if 5 ≤ st.entries.length then evictOldest st.entries else st.entries
  ⟨jsMapSet entries1 freshId (freshRecording freshId actionType ap now)⟩

/-- Model of `stopRecording(recordingId, reason)` at registry level: look the
recording up and apply the stop mutation; unknown ids are left alone. -/
def stopRecordingReg (st : RegState) (id : String) (reason : StopReason)
    (now : Nat) : RegState :=
  match jsMapGet st.entries id with
  | none => st
  | some rec => ⟨jsMapSet st.entries id (stopRecording now reason rec)⟩

/-- The closed set of action kinds of `browser_action_record`. -/
inductive RecAction where
  | click
  | typeText
  | navigate
  | pressKey
  | wait
  deriving DecidableEq

/-- The wire name of each action kind. -/
def actionName : RecAction → String
  | .click => "click"
  | .typeText => "type"
  | .navigate => "navigate"
  | .pressKey => "press_key"
  | .wait => "wait"

/-- The request parameters of `browser_action_record`. -/
structure RecParams where
  tabId : String
  action : RecAction
  ref : Option String
  element : Option String
  text : Option String
  url : Option String
  key : Option String
  durationMs : Option Int
  intervalMs : Option Int
  stopOnIdleMs : Option Int
  deriving DecidableEq

/-- JavaScript truthiness of an optional string field (`undefined` and
`""` are falsy). -/
def optTruthy : Option String → Bool
  | some s => s != ""
  | none => false

/-- JavaScript `x || d` for an optional numeric field (0 is falsy). -/
def numOr (o : Option Int) (d : Int) : Int :=
  match o with
  | some x => if x ≠ 0 then x else d
  | none => d

/-- Model of `actionParams` as stored by the handler: the free-text `text` payload
is redacted. -/
def storedParams (p : RecParams) : StoredParams :=
  ⟨p.tabId, actionName p.action, p.ref, p.element,
   if optTruthy p.text then some "[REDACTED]" else none, p.url, p.key⟩

/-- A browser action actually attempted by the handler. -/
inductive BrowserCall where
  | click (ref : String)
  | fill (ref text : String)
  | goto (url : String)
  | press (key : String)
  deriving DecidableEq

/-- Outcome of the modelled part of the handler. -/
inductive HandleOutcome where
  | invalidTabId
  | tabError
  | actionFailed (msg : String)
  | proceeded (durationMs intervalMs stopOnIdleMs : Int)
  deriving DecidableEq

/-- Model of `browser_action_record`'s `handle` up to the start of the snapshot
loop: validate the tabId (before any side effect), clamp the numeric
parameters, create the recording, resolve the page, validate the required
field of the action kind and perform the one-shot action; every failure
after creation stops the just-created recording with reason `error`. -/
def handleActionRecord (st : RegState) (p : RecParams) (freshId : String)
    (now : Nat) (pageFound : Bool) (actionResult : Option String) :
    RegState × HandleOutcome × List BrowserCall :=
  if p.tabId = "" ∨ p.tabId.length ≠ 6 then (st, .invalidTabId, [])
  else
    let durationMs := min (numOr p.durationMs 10000) 30000
    let intervalMs := max (numOr p.intervalMs 100) 50
    let stopOnIdleMs := numOr p.stopOnIdleMs 2000
    let st1 := createRecording st freshId now (actionName p.action)
      (storedParams p)
    if !pageFound then
      (stopRecordingReg st1 freshId .error now, .tabError, [])
    else
      match p.action with
      | .click =>
        if !optTruthy p.ref then
          (stopRecordingReg st1 freshId .error now,
           .actionFailed "Action failed: ref required for click", [])
        else
          match actionResult with
          | none => (st1, .proceeded durationMs intervalMs stopOnIdleMs,
              [.click (p.ref.getD "")])
          | some msg => (stopRecordingReg st1 freshId .error now,
              .actionFailed ("Action failed: " ++ msg),
              [.click (p.ref.getD "")])
      | .typeText =>
        if !optTruthy p.ref || !optTruthy p.text then
          (stopRecordingReg st1 freshId .error now,
           .actionFailed "Action failed: ref and text required for type", [])
        else
          match actionResult with
          | none => (st1, .proceeded durationMs intervalMs stopOnIdleMs,
              [.fill (p.ref.getD "") (p.text.getD "")])
          | some msg => (stopRecordingReg st1 freshId .error now,
              .actionFailed ("Action failed: " ++ msg),
              [.fill (p.ref.getD "") (p.text.getD "")])
      | .navigate =>
        if !optTruthy p.url then
          (stopRecordingReg st1 freshId .error now,
           .actionFailed "Action failed: url required for navigate", [])
        else
          match actionResult with
          | none => (st1, .proceeded durationMs intervalMs stopOnIdleMs,
              [.goto (p.url.getD "")])
          | some msg => (stopRecordingReg st1 freshId .error now,
              .actionFailed ("Action failed: " ++ msg),
              [.goto (p.url.getD "")])
      | .pressKey =>
        if !optTruthy p.key then
          (stopRecordingReg st1 freshId .error now,
           .actionFailed "Action failed: key required for press_key", [])
        else
          match actionResult with
          | none => (st1, .proceeded durationMs intervalMs stopOnIdleMs,
              [.press (p.key.getD "")])
          | some msg => (stopRecordingReg st1 freshId .error now,
              .actionFailed ("Action failed: " ++ msg),
              [.press (p.key.getD "")])
      | .wait => (st1, .proceeded durationMs intervalMs stopOnIdleMs, [])

/-- Whether the request misses a required field of its action kind. -/
def missingRequiredField (p : RecParams) : Bool :=
  match p.action with
  | .click => !optTruthy p.ref
  | .typeText => !optTruthy p.ref || !optTruthy p.text
  | .navigate => !optTruthy p.url
  | .pressKey => !optTruthy p.key
  | .wait => false

/-- The error surfaced for each missing-field action kind. -/
def missingFieldMsg : RecAction → String
  | .click => "Action failed: ref required for click"
  | .typeText => "Action failed: ref and text required for type"
  | .navigate => "Action failed: url required for navigate"
  | .pressKey => "Action failed: key required for press_key"
  | .wait => ""

theorem jsMapGet_createRecording (st : RegState) (freshId : String)
    (now : Nat) (actionType : String) (ap : StoredParams) :
    jsMapGet (createRecording st freshId now actionType ap).entries freshId
      = some (freshRecording freshId actionType ap now) := by
  simp only [createRecording]
  exact jsMapGet_set_self _ _ _

theorem stopReg_after_create (st : RegState) (freshId : String) (now : Nat)
    (actionType : String) (ap : StoredParams) (reason : StopReason)
    (now2 : Nat) :
    jsMapGet (stopRecordingReg (createRecording st freshId now actionType ap)
        freshId reason now2).entries freshId
      = some (stopRecording now2 reason
          (freshRecording freshId actionType ap now)) := by
  simp only [stopRecordingReg,
    jsMapGet_createRecording st freshId now actionType ap]
  exact jsMapGet_set_self _ _ _

/-- C4 counterexample: a `click` request with a valid tabId but no `ref`.
The handler creates a recording session before validating the field, then
stops it with reason `error` — the registry afterwards holds one stopped
session, refuting "no recording session is created or stopped", and the
failure is surfaced as an action error, not prior to side effects. -/
theorem c4_counterexample :
    (handleActionRecord ⟨[]⟩
        ⟨"abc123", .click, none, none, none, none, none, none, none, none⟩
        "rec_1" 0 true none).1.entries.length = 1
    ∧ (jsMapGet (handleActionRecord ⟨[]⟩
        ⟨"abc123", .click, none, none, none, none, none, none, none, none⟩
        "rec_1" 0 true none).1.entries "rec_1").map
          (fun r => (r.isRecording, r.stoppedReason))
        = some (false, some .error)
    ∧ (handleActionRecord ⟨[]⟩
        ⟨"abc123", .click, none, none, none, none, none, none, none, none⟩
        "rec_1" 0 true none).2.1
        = .actionFailed "Action failed: ref required for click" := by
  refine ⟨by decide, by decide, by decide⟩

/-- C4 amended: a create-recording request whose action kind misses a
required field does fail before the action is attempted (no browser call
is performed) and the failure is surfaced immediately; but it is not free
of side effects: a recording session is first created and then stopped
with reason `error`, and the error is reported as `Action failed: …`. -/
theorem c4_missing_field_amended (st : RegState) (p : RecParams)
    (freshId : String) (now : Nat) (actionResult : Option String)
    (htab : ¬(p.tabId = "" ∨ p.tabId.length ≠ 6))
    (hmiss : missingRequiredField p = true) :
    (handleActionRecord st p freshId now true actionResult).2.2 = []
    ∧ (handleActionRecord st p freshId now true actionResult).2.1
        = .actionFailed (missingFieldMsg p.action)
    ∧ ∃ rec, jsMapGet
          (handleActionRecord st p freshId now true actionResult).1.entries
          freshId = some rec
        ∧ rec.isRecording = false ∧ rec.stoppedReason = some .error
        ∧ rec.endedAt = some now := by
  cases hact : p.action with
  | wait => simp [missingRequiredField, hact] at hmiss
  | click =>
    simp only [missingRequiredField, hact] at hmiss
    simp only [handleActionRecord, if_neg htab, hact, Bool.not_true,
      Bool.false_eq_true, if_false, hmiss, if_true, missingFieldMsg]
    exact ⟨trivial, trivial, ⟨_, stopReg_after_create st freshId now
      (actionName .click) (storedParams p) .error now, rfl, rfl, rfl⟩⟩
  | typeText =>
    simp only [missingRequiredField, hact] at hmiss
    simp only [handleActionRecord, if_neg htab, hact, Bool.not_true,
      Bool.false_eq_true, if_false, hmiss, if_true, missingFieldMsg]
    exact ⟨trivial, trivial, ⟨_, stopReg_after_create st freshId now
      (actionName .typeText) (storedParams p) .error now, rfl, rfl, rfl⟩⟩
  | navigate =>
    simp only [missingRequiredField, hact] at hmiss
    simp only [handleActionRecord, if_neg htab, hact, Bool.not_true,
      Bool.false_eq_true, if_false, hmiss, if_true, missingFieldMsg]
    exact ⟨trivial, trivial, ⟨_, stopReg_after_create st freshId now
      (actionName .navigate) (storedParams p) .error now, rfl, rfl, rfl⟩⟩
  | pressKey =>
    simp only [missingRequiredField, hact] at hmiss
    simp only [handleActionRecord, if_neg htab, hact, Bool.not_true,
      Bool.false_eq_true, if_false, hmiss, if_true, missingFieldMsg]
    exact ⟨trivial, trivial, ⟨_, stopReg_after_create st freshId now
      (actionName .pressKey) (storedParams p) .error now, rfl, rfl, rfl⟩⟩

theorem c4_witness :
    ¬(("abc123" : String) = "" ∨ ("abc123" : String).length ≠ 6)
    ∧ missingRequiredField
        ⟨"abc123", .navigate, none, none, none, none, none, none, none,
          none⟩ = true
    ∧ ((handleActionRecord ⟨[]⟩
        ⟨"abc123", .navigate, none, none, none, none, none, none, none,
          none⟩ "rec_2" 3 true none).2.2 = []
      ∧ (handleActionRecord ⟨[]⟩
        ⟨"abc123", .navigate, none, none, none, none, none, none, none,
          none⟩ "rec_2" 3 true none).2.1
          = .actionFailed (missingFieldMsg .navigate)
      ∧ ∃ rec, jsMapGet (handleActionRecord ⟨[]⟩
            ⟨"abc123", .navigate, none, none, none, none, none, none,
              none, none⟩ "rec_2" 3 true none).1.entries "rec_2" = some rec
          ∧ rec.isRecording = false ∧ rec.stoppedReason = some .error
          ∧ rec.endedAt = some 3) :=
  ⟨by decide, by decide,
   c4_missing_field_amended ⟨[]⟩
     ⟨"abc123", .navigate, none, none, none, none, none, none, none, none⟩
     "rec_2" 3 none (by decide) (by decide)⟩

end PwMcp
